import Mathlib

/-!
Shallow embedding of `src/securecmd/main.c` (the gitrunner sandbox launcher).

The program is straight-line code: a sequence of system calls, each either
checked (on failure: `perror`/`printf` a diagnostic and `return 1`) or
unchecked (result ignored).  We embed it as a list of `Step`s interpreted by
`runSteps` under an oracle `ok : Nat → Bool` that decides whether the n-th
attempted call succeeds.  The fork three-way outcome, the child's eventual
wait status, the success of `execvp` and the garbage register value read when
`secure_me` falls off its end without a `return` are further components of
the `World` the program runs in.

`secure_me` and `gitrunner_main` mirror the C functions statement by
statement; the `DOMOUNT` / `BINDMOUNT` / `BINDMOUNT_EX` / `COPYFILE` step
builders mirror the C macros of the same names.
-/

set_option maxRecDepth 20000
set_option maxHeartbeats 2000000

namespace Gitrunner

/-- Linux `MS_RDONLY` mount flag. -/
def MS_RDONLY : Nat := 1

/-- Linux `MS_NOSUID` mount flag. -/
def MS_NOSUID : Nat := 2

/-- Linux `MS_NODEV` mount flag. -/
def MS_NODEV : Nat := 4

/-- Linux `MS_REMOUNT` mount flag. -/
def MS_REMOUNT : Nat := 32

/-- Linux `MS_BIND` mount flag. -/
def MS_BIND : Nat := 4096

/-- Linux `CLONE_NEWNS` unshare flag. -/
def CLONE_NEWNS : Nat := 0x00020000

/-- Linux `CLONE_NEWUSER` unshare flag. -/
def CLONE_NEWUSER : Nat := 0x10000000

/-- Linux `CLONE_NEWPID` unshare flag. -/
def CLONE_NEWPID : Nat := 0x20000000

/-- the C macro `ROOTDIR`, the fixed sandbox root mount point. -/
def ROOTDIR : String := "/mnt"

/-- Kernel-visible operations attempted by the program.  A `mount` source of
`none` models a NULL `SRC` pointer (possible when `argv[1]` is absent). -/
inductive Ev where
  | unshare (flags : Nat)
  | openWrite (path : String)
  | write (path : String) (content : String)
  | close (path : String)
  | mount (src : Option String) (target : String) (fstype : Option String)
      (flags : Nat) (data : Option String)
  | mkdir (path : String) (mode : Nat)
  | chmod (path : String) (mode : Nat)
  | symlink (target : String) (linkpath : String)
  | fcopy (src : String) (dst : String)
  | fork
  | waitpid (childStatus : Int) (statusRequested : Bool)
  | chroot (path : String)
  | chdir (path : String)
  | setresuid (r e s : Int)
  | setresgid (r e s : Int)
  deriving DecidableEq, Repr

/-- One C statement performing a call: `sys` is a checked call (on failure the
attached diagnostic is emitted and the function returns 1), `sysIgn` is a call
whose result the C code ignores. -/
inductive Step where
  | sys (e : Ev) (diag : String)
  | sysIgn (e : Ev)
  deriving DecidableEq, Repr

/-- the operation a step attempts. -/
def stepEv : Step → Ev
  | Step.sys e _ => e
  | Step.sysIgn e => e

/-- the single `"%d %d 1\n"` line `dprintf` writes into a uid/gid map. -/
def mapLine (id : Int) : String := toString id ++ " " ++ toString id ++ " 1\n"

/-- the C macro `DOMOUNT(DIR, SRC, TYPE, FLAGS)`: mkdir the mount point, mount,
then remount with the combined flag set; each of the three calls is checked. -/
def DOMOUNT (dir : String) (src : Option String) (ty : Option String)
    (flags : Nat) : List Step :=
  [Step.sys (Ev.mkdir (ROOTDIR ++ dir) 0o755) ("mkdir_bind_" ++ dir),
   Step.sys (Ev.mount src (ROOTDIR ++ dir) ty (flags ||| MS_NODEV ||| MS_NOSUID) none)
     ("mount_bind_" ++ dir),
   Step.sys (Ev.mount src (ROOTDIR ++ dir) ty
       (MS_REMOUNT ||| flags ||| MS_NODEV ||| MS_NOSUID) none)
     ("mount_bind_" ++ dir)]

/-- the C macro `BINDMOUNT_EX(SRC, DIR, FLAGS)`. -/
def BINDMOUNT_EX (src : Option String) (dir : String) (flags : Nat) : List Step :=
  DOMOUNT dir src none (MS_BIND ||| flags)

/-- the C macro `BINDMOUNT(DIR)`. -/
def BINDMOUNT (dir : String) : List Step :=
  BINDMOUNT_EX (some dir) dir MS_RDONLY

/-- the C macro `COPYFILE(FILE)`: `fcopy(FILE, ROOTDIR FILE)`, checked, with a
`printf` diagnostic on failure. -/
def COPYFILE (file : String) : List Step :=
  [Step.sys (Ev.fcopy file (ROOTDIR ++ file)) ("Error copying file " ++ file)]

/-- the statements of `secure_me` before the `fork()` call (main.c lines
61-129), in source order. -/
def preForkSteps (uid gid : Int) (appdir : Option String) : List Step :=
  [Step.sys (Ev.unshare (CLONE_NEWUSER ||| CLONE_NEWPID)) "CLONE_NEWUSER",
   Step.sys (Ev.openWrite "/proc/self/uid_map") "uid_map_open",
   Step.sys (Ev.write "/proc/self/uid_map" (mapLine uid)) "uid_map_dprintf",
   Step.sysIgn (Ev.close "/proc/self/uid_map"),
   Step.sys (Ev.openWrite "/proc/self/setgroups") "setgroups_open",
   Step.sys (Ev.write "/proc/self/setgroups" "deny\n") "setgroups_dprintf",
   Step.sysIgn (Ev.close "/proc/self/setgroups"),
   Step.sys (Ev.openWrite "/proc/self/gid_map") "gid_map_open",
   Step.sys (Ev.write "/proc/self/gid_map" (mapLine gid)) "gid_map_dprintf",
   Step.sysIgn (Ev.close "/proc/self/gid_map"),
   Step.sys (Ev.unshare CLONE_NEWNS) "CLONE_NEWNS",
   Step.sys (Ev.mount (some "tmpfs") ROOTDIR (some "tmpfs")
       (MS_NOSUID ||| MS_NODEV) (some "size=1M")) "mount_root",
   Step.sys (Ev.mkdir (ROOTDIR ++ "/etc") 0o755) "mkdir_etc"]
  ++ BINDMOUNT "/usr" ++ BINDMOUNT "/bin" ++ BINDMOUNT "/sbin"
  ++ BINDMOUNT "/lib" ++ BINDMOUNT "/lib64"
  ++ BINDMOUNT_EX appdir "/app" 0
  ++ [Step.sysIgn (Ev.mkdir (ROOTDIR ++ "/app/.tmp") 0o1777),
      Step.sysIgn (Ev.chmod (ROOTDIR ++ "/app/.tmp") 0o1777),
      Step.sysIgn (Ev.symlink "/app/.tmp" (ROOTDIR ++ "/tmp"))]
  ++ COPYFILE "/etc/resolv.conf" ++ COPYFILE "/etc/hosts"
  ++ COPYFILE "/etc/passwd" ++ COPYFILE "/etc/group"

/-- the statements the child executes after the `fork()` (main.c lines
141-163): mount /proc, the unchecked read-only remount of the sandbox root,
chroot, chdir, setresuid, setresgid. -/
def postForkSteps (uid gid : Int) : List Step :=
  DOMOUNT "/proc" (some "none") (some "proc") 0
  ++ [Step.sysIgn (Ev.mount (some "tmpfs") ROOTDIR (some "tmpfs")
        (MS_REMOUNT ||| MS_NODEV ||| MS_NOSUID ||| MS_RDONLY) none),
      Step.sys (Ev.chroot ROOTDIR) "chroot",
      Step.sys (Ev.chdir "/app") "chdir_root",
      Step.sys (Ev.setresuid uid uid uid) "setresuid",
      Step.sys (Ev.setresgid gid gid gid) "setresgid"]

/-- Result of running a straight-line step list: the operations attempted (in
order), whether every checked call succeeded, and the diagnostics emitted. -/
structure RunOut where
  trace : List Ev
  ok : Bool
  errs : List String
  deriving DecidableEq, Repr

/-- Interpreter for a step list under the success oracle `okf`; `i` numbers
the attempted calls.  A checked call that fails emits its diagnostic and stops
(the C `return 1`); an unchecked call always falls through. -/
def runSteps (okf : Nat → Bool) (i : Nat) : List Step → RunOut
  | [] => ⟨[], true, []⟩
  | Step.sys e d :: rest =>
    if okf i then
      let r := runSteps okf (i + 1) rest
      ⟨e :: r.trace, r.ok, r.errs⟩
    else ⟨[e], false, [d]⟩
  | Step.sysIgn e :: rest =>
    let r := runSteps okf (i + 1) rest
    ⟨e :: r.trace, r.ok, r.errs⟩

/-- What `fork()` does: fail, or continue as the parent, or as the child. -/
inductive ForkBeh where
  | fail
  | parent
  | child
  deriving DecidableEq, Repr

/-- Environment a run takes place in: the per-call success oracle, the fork
outcome, the status the child eventually exits with (the parent discards it),
the garbage value in the return register when `secure_me` ends without a
`return` statement, whether `execvp` succeeds, and the invoking uid/gid
returned by `getuid`/`getgid`. -/
structure World where
  ok : Nat → Bool
  forkBeh : ForkBeh
  childStatus : Int
  junk : Int
  execOk : Bool
  uid : Int
  gid : Int

/-- How an activation of `secure_me` ends: `ret v` is an executed
`return`; `ret none` means control fell off the end of the function, so the
value the caller reads is unspecified; `exit c` is the parent's `exit(0)`,
which terminates the process inside `secure_me`. -/
inductive Outcome where
  | ret (v : Option Int)
  | exit (code : Int)
  deriving DecidableEq, Repr

/-- Observable result of `secure_me`: how it ended, the operations attempted,
and the diagnostics printed. -/
structure SecureRes where
  outcome : Outcome
  trace : List Ev
  errs : List String
  deriving DecidableEq, Repr

/-- `secure_me(uid, gid, appdir)` from main.c lines 60-164.  Runs the
pre-fork statements; on success forks: a failed fork prints "fork" and
returns 1, the parent waits (passing a NULL status pointer) and exits 0, the
child runs the post-fork statements and — if they all succeed — falls off the
end of the function. -/
def secure_me (w : World) (uid gid : Int) (appdir : Option String) : SecureRes :=
  let pre := preForkSteps uid gid appdir
  let r := runSteps w.ok 0 pre
  if r.ok then
    match w.forkBeh with
    | ForkBeh.fail => ⟨Outcome.ret (some 1), r.trace ++ [Ev.fork], r.errs ++ ["fork"]⟩
    | ForkBeh.parent =>
        ⟨Outcome.exit 0, r.trace ++ [Ev.fork, Ev.waitpid w.childStatus false], r.errs⟩
    | ForkBeh.child =>
        let r2 := runSteps w.ok (pre.length + 1) (postForkSteps uid gid)
        ⟨if r2.ok then Outcome.ret none else Outcome.ret (some 1),
         r.trace ++ Ev.fork :: r2.trace, r.errs ++ r2.errs⟩
  else ⟨Outcome.ret (some 1), r.trace, r.errs⟩

/-- How the launcher process ends: `exited v` is a `return v` from `main` (or
the `exit(0)` in the parent); `execed prog args` means `execvp` succeeded and
the process image was replaced by `prog` (resolved via the standard search
path) with argument vector `args`. -/
inductive MainOutcome where
  | exited (v : Int)
  | execed (prog : Option String) (args : List String)
  deriving DecidableEq, Repr

/-- Observable result of `main`: whether the usage banner was printed, the
result of the `secure_me` call, the single `execvp` attempt (if control
reached it), and how the process ended. -/
structure MainRes where
  usagePrinted : Bool
  secure : SecureRes
  execAttempt : Option (Option String × List String)
  outcome : MainOutcome
  deriving Repr

/-- `main` from main.c lines 166-178.  `argc < 3` prints the usage banner but
does not terminate.  `argv[i]` reads off the end of the argument list give
`none` (the NULL terminator).  The value tested after a `secure_me` call that
fell off the end of the function is the unspecified register value `w.junk`.
`execvp(argv[2], argv + 2)` either replaces the image or returns -1, which
`main` returns. -/
def gitrunner_main (w : World) (argv : List String) : MainRes :=
  let usage := decide (argv.length < 3)
  let s := secure_me w w.uid w.gid argv[1]?
  match s.outcome with
  | Outcome.exit c => ⟨usage, s, none, MainOutcome.exited c⟩
  | Outcome.ret v =>
    if v.getD w.junk ≠ 0 then ⟨usage, s, none, MainOutcome.exited 1⟩
    else
      if w.execOk then
        ⟨usage, s, some (argv[2]?, argv.drop 2), MainOutcome.execed argv[2]? (argv.drop 2)⟩
      else ⟨usage, s, some (argv[2]?, argv.drop 2), MainOutcome.exited (-1)⟩

/-- a world in which every call succeeds and the process continues as the
fork's child: the canonical complete run. -/
def allOkWorld : World := ⟨fun _ => true, ForkBeh.child, 0, 0, true, 0, 0⟩

/-- the 8-bit exit status the kernel reports for a process returning `v`
from `main`. -/
def exitByte (v : Int) : Int := v % 256

/-- whether an operation is a write into `/proc/self/uid_map`. -/
def isUidMapWrite : Ev → Bool
  | Ev.write p _ => p == "/proc/self/uid_map"
  | _ => false

/-- whether an operation is a write into `/proc/self/gid_map`. -/
def isGidMapWrite : Ev → Bool
  | Ev.write p _ => p == "/proc/self/gid_map"
  | _ => false

/-- whether an operation is a mount or a chroot. -/
def isMountOrChroot : Ev → Bool
  | Ev.mount _ _ _ _ _ => true
  | Ev.chroot _ => true
  | _ => false

/-- whether an operation belongs to the namespace-initialization vocabulary:
an `unshare` or a map/setgroups write. -/
def isNsInitEv : Ev → Bool
  | Ev.unshare _ => true
  | Ev.write _ _ => true
  | _ => false

/-- the destination of a mount operation, if any. -/
def mountTarget : Ev → Option String
  | Ev.mount _ t _ _ _ => some t
  | _ => none

/-- the paths an operation writes to, creates, or uses as a mount
destination (sources of bind mounts and copies are reads and not listed). -/
def writeTargets : Ev → List String
  | Ev.openWrite p => [p]
  | Ev.write p _ => [p]
  | Ev.mount _ t _ _ _ => [t]
  | Ev.mkdir p _ => [p]
  | Ev.chmod p _ => [p]
  | Ev.symlink _ link => [link]
  | Ev.fcopy _ dst => [dst]
  | _ => []

/-- whether the first character list leads the second one. -/
def leadsWith : List Char → List Char → Bool
  | [], _ => true
  | _ :: _, [] => false
  | a :: as, b :: bs => a == b && leadsWith as bs

/-- whether `p` is strictly below the directory `root` (it continues `root`
past a path separator). -/
def strictlyUnder (root p : String) : Bool := leadsWith (root ++ "/").data p.data

/-- whether a path is the sandbox root itself or strictly below it. -/
def inSandbox (p : String) : Bool := p == ROOTDIR || strictlyUnder ROOTDIR p

/-!  Generic lemmas about the interpreter. -/

theorem all_of_subset {α : Type} (q : α → Bool) {l L : List α}
    (h : l ⊆ L) (hL : L.all q = true) : l.all q = true := by
  rw [List.all_eq_true] at hL ⊢
  exact fun x hx => hL x (h hx)

theorem all_flatMap_of_subset {α β : Type} (g : α → List β) (q : β → Bool) {l L : List α}
    (h : l ⊆ L) (hL : (L.flatMap g).all q = true) : (l.flatMap g).all q = true := by
  rw [List.all_eq_true] at hL ⊢
  intro x hx
  rw [List.mem_flatMap] at hx
  obtain ⟨a, ha, hxa⟩ := hx
  exact hL x (List.mem_flatMap.2 ⟨a, h ha, hxa⟩)

/-- Complete characterization of a straight-line run: either every checked
call succeeded and the whole step list was executed with no diagnostics, or
the run consists of an all-successful checked portion `l₁`, then one checked
call that failed, whose operation is still attempted (it ends the trace) and
whose diagnostic is the only one emitted; nothing after it runs. -/
theorem runSteps_cases (okf : Nat → Bool) :
    ∀ (steps : List Step) (i : Nat),
    ((runSteps okf i steps).ok = true ∧
     (runSteps okf i steps).trace = steps.map stepEv ∧
     (runSteps okf i steps).errs = [] ∧
     (∀ j e d, steps[j]? = some (Step.sys e d) → okf (i + j) = true))
  ∨ (∃ l₁ e d l₂, steps = l₁ ++ Step.sys e d :: l₂ ∧
     (runSteps okf i steps).ok = false ∧
     (runSteps okf i steps).trace = l₁.map stepEv ++ [e] ∧
     (runSteps okf i steps).errs = [d] ∧
     okf (i + l₁.length) = false ∧
     (∀ j e2 d2, l₁[j]? = some (Step.sys e2 d2) → okf (i + j) = true)) := by
  intro steps
  induction steps with
  | nil =>
    intro i
    left
    refine ⟨rfl, rfl, rfl, ?_⟩
    intro j e d h
    simp at h
  | cons s rest ih =>
    intro i
    cases s with
    | sys e d =>
      by_cases hok : okf i = true
      · rcases ih (i + 1) with ⟨h1, h2, h3, h4⟩ |
          ⟨l₁, e', d', l₂, hdec, hf, htr, herr, hfail, hgood⟩
        · left
          refine ⟨?_, ?_, ?_, ?_⟩
          · simpa [runSteps, hok] using h1
          · simp [runSteps, hok, h2, stepEv]
          · simpa [runSteps, hok] using h3
          · intro j e2 d2 hj
            cases j with
            | zero =>
              simp only [List.getElem?_cons_zero, Option.some.injEq] at hj
              simpa using hok
            | succ n =>
              simp only [List.getElem?_cons_succ] at hj
              have h5 := h4 n e2 d2 hj
              have harith : i + (n + 1) = i + 1 + n := by omega
              rw [harith]
              exact h5
        · right
          refine ⟨Step.sys e d :: l₁, e', d', l₂, ?_, ?_, ?_, ?_, ?_, ?_⟩
          · simp [hdec]
          · simpa [runSteps, hok] using hf
          · simp [runSteps, hok, htr, stepEv]
          · simpa [runSteps, hok] using herr
          · have harith : i + (Step.sys e d :: l₁).length = i + 1 + l₁.length := by
              simp [List.length_cons]
              omega
            rw [harith]
            exact hfail
          · intro j e2 d2 hj
            cases j with
            | zero =>
              simp only [List.getElem?_cons_zero, Option.some.injEq] at hj
              simpa using hok
            | succ n =>
              simp only [List.getElem?_cons_succ] at hj
              have h5 := hgood n e2 d2 hj
              have harith : i + (n + 1) = i + 1 + n := by omega
              rw [harith]
              exact h5
      · rw [Bool.not_eq_true] at hok
        right
        refine ⟨[], e, d, rest, by simp, ?_, ?_, ?_, ?_, ?_⟩
        · simp [runSteps, hok]
        · simp [runSteps, hok]
        · simp [runSteps, hok]
        · simpa using hok
        · intro j e2 d2 hj
          simp at hj
    | sysIgn e =>
      rcases ih (i + 1) with ⟨h1, h2, h3, h4⟩ |
        ⟨l₁, e', d', l₂, hdec, hf, htr, herr, hfail, hgood⟩
      · left
        refine ⟨?_, ?_, ?_, ?_⟩
        · simpa [runSteps] using h1
        · simp [runSteps, h2, stepEv]
        · simpa [runSteps] using h3
        · intro j e2 d2 hj
          cases j with
          | zero => simp at hj
          | succ n =>
            simp only [List.getElem?_cons_succ] at hj
            have h5 := h4 n e2 d2 hj
            have harith : i + (n + 1) = i + 1 + n := by omega
            rw [harith]
            exact h5
      · right
        refine ⟨Step.sysIgn e :: l₁, e', d', l₂, ?_, ?_, ?_, ?_, ?_, ?_⟩
        · simp [hdec]
        · simpa [runSteps] using hf
        · simp [runSteps, htr, stepEv]
        · simpa [runSteps] using herr
        · have harith : i + (Step.sysIgn e :: l₁).length = i + 1 + l₁.length := by
            simp [List.length_cons]
            omega
          rw [harith]
          exact hfail
        · intro j e2 d2 hj
          cases j with
          | zero => simp at hj
          | succ n =>
            simp only [List.getElem?_cons_succ] at hj
            have h5 := hgood n e2 d2 hj
            have harith : i + (n + 1) = i + 1 + n := by omega
            rw [harith]
            exact h5

/-- When every checked call of a run succeeds, the trace is the whole step
list and no diagnostics are emitted. -/
theorem runSteps_ok_char (okf : Nat → Bool) (steps : List Step) (i : Nat)
    (h : (runSteps okf i steps).ok = true) :
    (runSteps okf i steps).trace = steps.map stepEv ∧
    (runSteps okf i steps).errs = [] ∧
    (∀ j e d, steps[j]? = some (Step.sys e d) → okf (i + j) = true) := by
  rcases runSteps_cases okf steps i with ⟨_, h2, h3, h4⟩ | ⟨_, _, _, _, _, hf, _⟩
  · exact ⟨h2, h3, h4⟩
  · rw [h] at hf
    cases hf

/-- Every trace of a straight-line run executes a prefix of the step list. -/
theorem runSteps_trace_take (okf : Nat → Bool) (steps : List Step) (i : Nat) :
    ∃ m, m ≤ steps.length ∧ (runSteps okf i steps).trace = (steps.take m).map stepEv := by
  rcases runSteps_cases okf steps i with ⟨_, h2, _, _⟩ |
    ⟨l₁, e, d, l₂, hdec, _, htr, _, _, _⟩
  · exact ⟨steps.length, Nat.le_refl _, by simp [h2]⟩
  · refine ⟨l₁.length + 1, ?_, ?_⟩
    · rw [hdec]
      simp only [List.length_append, List.length_cons]
      omega
    · rw [htr, hdec]
      have h1 : (l₁ ++ Step.sys e d :: l₂).take (l₁.length + 1) = l₁ ++ [Step.sys e d] := by
        rw [List.take_append_eq_append_take]
        congr 1
        · exact List.take_of_length_le (by omega)
        · simp
      rw [h1]
      simp [stepEv]

/-- Shape of every possible trace of `secure_me`: a prefix of the pre-fork
operations, or the complete pre-fork operations followed by the fork and then
nothing (failed fork), the parent's wait, or a prefix of the child's post-fork
operations. -/
theorem secure_trace_shape (w : World) (uid gid : Int) (appdir : Option String) :
    (∃ m, (secure_me w uid gid appdir).trace =
        ((preForkSteps uid gid appdir).take m).map stepEv)
  ∨ (∃ rest, (secure_me w uid gid appdir).trace =
        (preForkSteps uid gid appdir).map stepEv ++ Ev.fork :: rest ∧
      (rest = [] ∨ rest = [Ev.waitpid w.childStatus false] ∨
       ∃ m2, rest = ((postForkSteps uid gid).take m2).map stepEv)) := by
  by_cases hok : (runSteps w.ok 0 (preForkSteps uid gid appdir)).ok = true
  · obtain ⟨htr, _, _⟩ := runSteps_ok_char _ _ _ hok
    cases hfb : w.forkBeh with
    | fail =>
      right
      exact ⟨[], by simp [secure_me, hok, hfb, htr], Or.inl rfl⟩
    | parent =>
      right
      exact ⟨[Ev.waitpid w.childStatus false],
        by simp [secure_me, hok, hfb, htr], Or.inr (Or.inl rfl)⟩
    | child =>
      right
      obtain ⟨m2, _, htr2⟩ := runSteps_trace_take w.ok (postForkSteps uid gid)
        ((preForkSteps uid gid appdir).length + 1)
      exact ⟨((postForkSteps uid gid).take m2).map stepEv,
        by simp [secure_me, hok, hfb, htr, htr2], Or.inr (Or.inr ⟨m2, rfl⟩)⟩
  · rw [Bool.not_eq_true] at hok
    left
    obtain ⟨m, _, htr⟩ := runSteps_trace_take w.ok (preForkSteps uid gid appdir) 0
    exact ⟨m, by simp [secure_me, hok, htr]⟩

/-!  Concrete facts about the step lists, all by computation. -/

theorem preForkSteps_length (uid gid : Int) (appdir : Option String) :
    (preForkSteps uid gid appdir).length = 38 := rfl

theorem countP_pre_uid (uid gid : Int) (appdir : Option String) :
    ((preForkSteps uid gid appdir).map stepEv).countP isUidMapWrite = 1 := rfl

theorem countP_pre_gid (uid gid : Int) (appdir : Option String) :
    ((preForkSteps uid gid appdir).map stepEv).countP isGidMapWrite = 1 := rfl

theorem countP_post_uid (uid gid : Int) :
    ((postForkSteps uid gid).map stepEv).countP isUidMapWrite = 0 := rfl

theorem countP_post_gid (uid gid : Int) :
    ((postForkSteps uid gid).map stepEv).countP isGidMapWrite = 0 := rfl

theorem takeWhile_pre_uid (uid gid : Int) (appdir : Option String) :
    ((preForkSteps uid gid appdir).map stepEv).takeWhile (fun e => !isUidMapWrite e) =
      [Ev.unshare (CLONE_NEWUSER ||| CLONE_NEWPID), Ev.openWrite "/proc/self/uid_map"] := rfl

/-- In every world, the trace of `secure_me` contains at most one occurrence
of any operation kind that occurs exactly once among the pre-fork operations
and nowhere among the post-fork ones. -/
theorem countP_trace_le_one (w : World) (uid gid : Int) (appdir : Option String)
    (p : Ev → Bool)
    (hpre : ((preForkSteps uid gid appdir).map stepEv).countP p = 1)
    (hpost : ((postForkSteps uid gid).map stepEv).countP p = 0)
    (hfork : p Ev.fork = false) (hwait : p (Ev.waitpid w.childStatus false) = false) :
    (secure_me w uid gid appdir).trace.countP p ≤ 1 := by
  rcases secure_trace_shape w uid gid appdir with ⟨m, htr⟩ | ⟨rest, htr, hrest⟩
  · rw [htr]
    calc (((preForkSteps uid gid appdir).take m).map stepEv).countP p
        ≤ ((preForkSteps uid gid appdir).map stepEv).countP p :=
          ((List.take_sublist m (preForkSteps uid gid appdir)).map stepEv).countP_le p
      _ = 1 := hpre
  · have hr : rest.countP p = 0 := by
      rcases hrest with rfl | rfl | ⟨m2, rfl⟩
      · rfl
      · simp [List.countP_cons, hwait]
      · have hle : (((postForkSteps uid gid).take m2).map stepEv).countP p ≤
            ((postForkSteps uid gid).map stepEv).countP p :=
          ((List.take_sublist m2 (postForkSteps uid gid)).map stepEv).countP_le p
        omega
    rw [htr, List.countP_append, List.countP_cons, hfork, hr, hpre]
    simp

/-- In every world, no mount and no chroot is attempted before the write into
`/proc/self/uid_map`. -/
theorem takeWhile_trace_all (w : World) (uid gid : Int) (appdir : Option String) :
    (((secure_me w uid gid appdir).trace.takeWhile (fun e => !isUidMapWrite e)).all
      (fun e => !isMountOrChroot e)) = true := by
  rcases secure_trace_shape w uid gid appdir with ⟨m, htr⟩ | ⟨rest, htr, _⟩
  · rw [htr, List.map_take, ← List.take_takeWhile, takeWhile_pre_uid]
    refine all_of_subset _ (List.take_subset _ _) ?_
    rfl
  · rw [htr, List.takeWhile_append, takeWhile_pre_uid]
    have hcond : ¬ (([Ev.unshare (CLONE_NEWUSER ||| CLONE_NEWPID),
        Ev.openWrite "/proc/self/uid_map"] : List Ev).length =
        ((preForkSteps uid gid appdir).map stepEv).length) := by
      simp [preForkSteps_length]
    rw [if_neg hcond]
    rfl

/-- Claim C1: the namespace-initialization phase of `secure_me` performs, in
this exact order, the unshare of the user and pid namespaces together, the
uid-map write of exactly one line mapping the invoking uid to itself with
count 1, the `deny` write into the setgroups control, and the gid-map write of
one analogous line; in every world the uid-map write happens before any mount
or chroot operation, and at most one identity mapping per namespace is ever
written (exactly one in the complete run). -/
theorem c1_namespace_init (w : World) (uid gid : Int) (appdir : Option String) :
    ((secure_me w uid gid appdir).trace.countP isUidMapWrite ≤ 1 ∧
     (secure_me w uid gid appdir).trace.countP isGidMapWrite ≤ 1) ∧
    (((secure_me w uid gid appdir).trace.takeWhile (fun e => !isUidMapWrite e)).all
        (fun e => !isMountOrChroot e) = true) ∧
    ((secure_me allOkWorld uid gid appdir).trace.filter isNsInitEv =
      [Ev.unshare (CLONE_NEWUSER ||| CLONE_NEWPID),
       Ev.write "/proc/self/uid_map" (mapLine uid),
       Ev.write "/proc/self/setgroups" "deny\n",
       Ev.write "/proc/self/gid_map" (mapLine gid),
       Ev.unshare CLONE_NEWNS]) ∧
    ((secure_me allOkWorld uid gid appdir).trace.countP isUidMapWrite = 1 ∧
     (secure_me allOkWorld uid gid appdir).trace.countP isGidMapWrite = 1) :=
  ⟨⟨countP_trace_le_one w uid gid appdir isUidMapWrite
      (countP_pre_uid uid gid appdir) (countP_post_uid uid gid) rfl rfl,
    countP_trace_le_one w uid gid appdir isGidMapWrite
      (countP_pre_gid uid gid appdir) (countP_post_gid uid gid) rfl rfl⟩,
   takeWhile_trace_all w uid gid appdir, rfl, rfl, rfl⟩

/-- Claim C2: in the complete run, the root-filesystem build phase (the trace
between the mount-namespace unshare and the fork) is exactly: unshare the
mount namespace, mount the size-bounded tmpfs at the sandbox root, create
`/etc`, then for each of /usr, /bin, /sbin, /lib, /lib64 create the mount
point, bind-mount it read-only/nodev/nosuid, and remount with the combined
flags, then bind-mount the application directory at /app, then create the
temp directory and the /tmp symlink, then copy the four configuration
files. -/
theorem c2_rootfs_build_order (uid gid : Int) (appdir : Option String) :
    ((secure_me allOkWorld uid gid appdir).trace.drop 10).take 28 =
      [Ev.unshare CLONE_NEWNS,
       Ev.mount (some "tmpfs") ROOTDIR (some "tmpfs") (MS_NOSUID ||| MS_NODEV)
         (some "size=1M"),
       Ev.mkdir (ROOTDIR ++ "/etc") 0o755,
       Ev.mkdir (ROOTDIR ++ "/usr") 0o755,
       Ev.mount (some "/usr") (ROOTDIR ++ "/usr") none
         (MS_BIND ||| MS_RDONLY ||| MS_NODEV ||| MS_NOSUID) none,
       Ev.mount (some "/usr") (ROOTDIR ++ "/usr") none
         (MS_REMOUNT ||| (MS_BIND ||| MS_RDONLY) ||| MS_NODEV ||| MS_NOSUID) none,
       Ev.mkdir (ROOTDIR ++ "/bin") 0o755,
       Ev.mount (some "/bin") (ROOTDIR ++ "/bin") none
         (MS_BIND ||| MS_RDONLY ||| MS_NODEV ||| MS_NOSUID) none,
       Ev.mount (some "/bin") (ROOTDIR ++ "/bin") none
         (MS_REMOUNT ||| (MS_BIND ||| MS_RDONLY) ||| MS_NODEV ||| MS_NOSUID) none,
       Ev.mkdir (ROOTDIR ++ "/sbin") 0o755,
       Ev.mount (some "/sbin") (ROOTDIR ++ "/sbin") none
         (MS_BIND ||| MS_RDONLY ||| MS_NODEV ||| MS_NOSUID) none,
       Ev.mount (some "/sbin") (ROOTDIR ++ "/sbin") none
         (MS_REMOUNT ||| (MS_BIND ||| MS_RDONLY) ||| MS_NODEV ||| MS_NOSUID) none,
       Ev.mkdir (ROOTDIR ++ "/lib") 0o755,
       Ev.mount (some "/lib") (ROOTDIR ++ "/lib") none
         (MS_BIND ||| MS_RDONLY ||| MS_NODEV ||| MS_NOSUID) none,
       Ev.mount (some "/lib") (ROOTDIR ++ "/lib") none
         (MS_REMOUNT ||| (MS_BIND ||| MS_RDONLY) ||| MS_NODEV ||| MS_NOSUID) none,
       Ev.mkdir (ROOTDIR ++ "/lib64") 0o755,
       Ev.mount (some "/lib64") (ROOTDIR ++ "/lib64") none
         (MS_BIND ||| MS_RDONLY ||| MS_NODEV ||| MS_NOSUID) none,
       Ev.mount (some "/lib64") (ROOTDIR ++ "/lib64") none
         (MS_REMOUNT ||| (MS_BIND ||| MS_RDONLY) ||| MS_NODEV ||| MS_NOSUID) none,
       Ev.mkdir (ROOTDIR ++ "/app") 0o755,
       Ev.mount appdir (ROOTDIR ++ "/app") none
         (MS_BIND ||| 0 ||| MS_NODEV ||| MS_NOSUID) none,
       Ev.mount appdir (ROOTDIR ++ "/app") none
         (MS_REMOUNT ||| (MS_BIND ||| 0) ||| MS_NODEV ||| MS_NOSUID) none,
       Ev.mkdir (ROOTDIR ++ "/app/.tmp") 0o1777,
       Ev.chmod (ROOTDIR ++ "/app/.tmp") 0o1777,
       Ev.symlink "/app/.tmp" (ROOTDIR ++ "/tmp"),
       Ev.fcopy "/etc/resolv.conf" (ROOTDIR ++ "/etc/resolv.conf"),
       Ev.fcopy "/etc/hosts" (ROOTDIR ++ "/etc/hosts"),
       Ev.fcopy "/etc/passwd" (ROOTDIR ++ "/etc/passwd"),
       Ev.fcopy "/etc/group" (ROOTDIR ++ "/etc/group")] := rfl

/-- Claim C3: in the complete run, the child's operations after the fork are
the /proc mount, the read-only remount of the sandbox root, chroot into the
sandbox root, chdir to /app, setresuid, and setresgid in exactly this order;
in particular the privilege-drop phase is remount, chroot, chdir, setresuid,
then setresgid — the uid is dropped before the gid. -/
theorem c3_privilege_drop_order (uid gid : Int) (appdir : Option String) :
    (secure_me allOkWorld uid gid appdir).trace.length = 47 ∧
    (secure_me allOkWorld uid gid appdir).trace.drop 38 =
      [Ev.fork,
       Ev.mkdir (ROOTDIR ++ "/proc") 0o755,
       Ev.mount (some "none") (ROOTDIR ++ "/proc") (some "proc")
         (0 ||| MS_NODEV ||| MS_NOSUID) none,
       Ev.mount (some "none") (ROOTDIR ++ "/proc") (some "proc")
         (MS_REMOUNT ||| 0 ||| MS_NODEV ||| MS_NOSUID) none,
       Ev.mount (some "tmpfs") ROOTDIR (some "tmpfs")
         (MS_REMOUNT ||| MS_NODEV ||| MS_NOSUID ||| MS_RDONLY) none,
       Ev.chroot ROOTDIR,
       Ev.chdir "/app",
       Ev.setresuid uid uid uid,
       Ev.setresgid gid gid gid] := ⟨rfl, rfl⟩

/-- Claim C4: whenever the pre-fork setup succeeds and the process continues
as the parent of the fork, it only waits for the child (with a NULL status
pointer, so the child's status is never inspected) and exits with the fixed
status 0, whatever status `w.childStatus` the child's target program exits
with. -/
theorem c4_parent_exits_zero (w : World) (uid gid : Int) (appdir : Option String)
    (hfb : w.forkBeh = ForkBeh.parent)
    (hok : (runSteps w.ok 0 (preForkSteps uid gid appdir)).ok = true) :
    (secure_me w uid gid appdir).outcome = Outcome.exit 0 ∧
    (secure_me w uid gid appdir).trace =
      (preForkSteps uid gid appdir).map stepEv ++
        [Ev.fork, Ev.waitpid w.childStatus false] := by
  obtain ⟨htr, _, _⟩ := runSteps_ok_char _ _ _ hok
  exact ⟨by simp [secure_me, hok, hfb], by simp [secure_me, hok, hfb, htr]⟩

/-- Witness for C4 at a concrete world whose child exits with status 42. -/
theorem c4_parent_exits_zero_witness :
    (secure_me (World.mk (fun _ => true) ForkBeh.parent 42 0 true 1000 1000) 1000 1000
        (some "/srv/app")).outcome = Outcome.exit 0 ∧
    (secure_me (World.mk (fun _ => true) ForkBeh.parent 42 0 true 1000 1000) 1000 1000
        (some "/srv/app")).trace =
      (preForkSteps 1000 1000 (some "/srv/app")).map stepEv ++
        [Ev.fork, Ev.waitpid 42 false] :=
  c4_parent_exits_zero (World.mk (fun _ => true) ForkBeh.parent 42 0 true 1000 1000)
    1000 1000 (some "/srv/app") rfl rfl

/-!  C5: failure handling of the setup operations. -/

/-- Claim C5 counterexample: in a world where the creation of the temp
directory `ROOTDIR/app/.tmp` (main.c line 122) fails, the setup does not
abort and no diagnostic is emitted — the run still completes (control falls
off the end of `secure_me`), because lines 122-124 never check their result.
This refutes the claim that every directory-creation failure aborts the setup
with a diagnostic. -/
theorem c5_counterexample_unchecked :
    (World.mk (fun i => decide (i ≠ 31)) ForkBeh.child 0 0 true 1000 1000).ok 31 = false ∧
    (secure_me (World.mk (fun i => decide (i ≠ 31)) ForkBeh.child 0 0 true 1000 1000)
        1000 1000 (some "/srv/app")).trace[31]? =
      some (Ev.mkdir (ROOTDIR ++ "/app/.tmp") 0o1777) ∧
    (secure_me (World.mk (fun i => decide (i ≠ 31)) ForkBeh.child 0 0 true 1000 1000)
        1000 1000 (some "/srv/app")).outcome = Outcome.ret none ∧
    (secure_me (World.mk (fun i => decide (i ≠ 31)) ForkBeh.child 0 0 true 1000 1000)
        1000 1000 (some "/srv/app")).errs = [] := ⟨rfl, rfl, rfl, rfl⟩

/-- Claim C5 (amended): whenever `secure_me` returns 1, exactly one
diagnostic was emitted, it is the diagnostic the source attaches to the
single checked operation that failed, the failing operation is the last one
attempted (no later step runs), and nothing that ran before it is rolled
back (the trace keeps every prior operation).  The failing point is a checked
pre-fork statement, the fork, or a checked post-fork statement; the unchecked
statements (lines 122-124 and 143 of main.c) never make `secure_me` return 1. -/
theorem c5_checked_failure_aborts (w : World) (uid gid : Int) (appdir : Option String)
    (h : (secure_me w uid gid appdir).outcome = Outcome.ret (some 1)) :
    ∃ d, (secure_me w uid gid appdir).errs = [d] ∧
      ((∃ l₁ e l₂, preForkSteps uid gid appdir = l₁ ++ Step.sys e d :: l₂ ∧
          (secure_me w uid gid appdir).trace = l₁.map stepEv ++ [e]) ∨
       (d = "fork" ∧ (secure_me w uid gid appdir).trace =
          (preForkSteps uid gid appdir).map stepEv ++ [Ev.fork]) ∨
       (∃ l₁ e l₂, postForkSteps uid gid = l₁ ++ Step.sys e d :: l₂ ∧
          (secure_me w uid gid appdir).trace =
            (preForkSteps uid gid appdir).map stepEv ++
              Ev.fork :: (l₁.map stepEv ++ [e]))) := by
  by_cases hok : (runSteps w.ok 0 (preForkSteps uid gid appdir)).ok = true
  · obtain ⟨htr, herr, _⟩ := runSteps_ok_char _ _ _ hok
    cases hfb : w.forkBeh with
    | fail =>
      refine ⟨"fork", ?_, Or.inr (Or.inl ⟨rfl, ?_⟩)⟩
      · simp [secure_me, hok, hfb, herr]
      · simp [secure_me, hok, hfb, htr]
    | parent =>
      exfalso
      simp [secure_me, hok, hfb] at h
    | child =>
      by_cases hok2 : (runSteps w.ok ((preForkSteps uid gid appdir).length + 1)
          (postForkSteps uid gid)).ok = true
      · exfalso
        simp [secure_me, hok, hfb, hok2] at h
      · rw [Bool.not_eq_true] at hok2
        rcases runSteps_cases w.ok (postForkSteps uid gid)
            ((preForkSteps uid gid appdir).length + 1) with ⟨h1, _, _, _⟩ |
          ⟨l₁, e, d, l₂, hdec, _, htr2, herr2, _, _⟩
        · rw [hok2] at h1
          cases h1
        · refine ⟨d, ?_, Or.inr (Or.inr ⟨l₁, e, l₂, hdec, ?_⟩)⟩
          · simp [secure_me, hok, hfb, herr, herr2]
          · simp [secure_me, hok, hfb, htr, htr2]
  · rw [Bool.not_eq_true] at hok
    rcases runSteps_cases w.ok (preForkSteps uid gid appdir) 0 with ⟨h1, _, _, _⟩ |
      ⟨l₁, e, d, l₂, hdec, _, htr, herr, _, _⟩
    · rw [hok] at h1
      cases h1
    · exact ⟨d, by simp [secure_me, hok, herr],
        Or.inl ⟨l₁, e, l₂, hdec, by simp [secure_me, hok, htr]⟩⟩

/-- Witness for the amended C5 at a world whose `mkdir_etc` call (index 12)
fails. -/
theorem c5_checked_failure_aborts_witness :
    ∃ d, (secure_me (World.mk (fun i => decide (i ≠ 12)) ForkBeh.child 0 0 true 1000 1000)
        1000 1000 (some "/srv/app")).errs = [d] ∧
      ((∃ l₁ e l₂, preForkSteps 1000 1000 (some "/srv/app") = l₁ ++ Step.sys e d :: l₂ ∧
          (secure_me (World.mk (fun i => decide (i ≠ 12)) ForkBeh.child 0 0 true 1000 1000)
            1000 1000 (some "/srv/app")).trace = l₁.map stepEv ++ [e]) ∨
       (d = "fork" ∧
          (secure_me (World.mk (fun i => decide (i ≠ 12)) ForkBeh.child 0 0 true 1000 1000)
            1000 1000 (some "/srv/app")).trace =
            (preForkSteps 1000 1000 (some "/srv/app")).map stepEv ++ [Ev.fork]) ∨
       (∃ l₁ e l₂, postForkSteps 1000 1000 = l₁ ++ Step.sys e d :: l₂ ∧
          (secure_me (World.mk (fun i => decide (i ≠ 12)) ForkBeh.child 0 0 true 1000 1000)
            1000 1000 (some "/srv/app")).trace =
            (preForkSteps 1000 1000 (some "/srv/app")).map stepEv ++
              Ev.fork :: (l₁.map stepEv ++ [e]))) :=
  c5_checked_failure_aborts
    (World.mk (fun i => decide (i ≠ 12)) ForkBeh.child 0 0 true 1000 1000)
    1000 1000 (some "/srv/app") rfl

/-!  C6: confinement of the paths the builder touches. -/

theorem targets_pre_inSandbox (uid gid : Int) (appdir : Option String) :
    ((((preForkSteps uid gid appdir).map stepEv).drop 11).flatMap writeTargets).all
      inSandbox = true := rfl

theorem targets_post_inSandbox (uid gid : Int) :
    (((postForkSteps uid gid).map stepEv).flatMap writeTargets).all inSandbox = true := rfl

/-- Claim C6 counterexample: the builder's very first mount after the
mount-namespace unshare — the tmpfs backing store — targets the sandbox root
mount point `/mnt` itself, which is not *strictly* under `/mnt`; so the claim
that every written/created/mount-destination path is strictly under the
sandbox root fails on the complete run. -/
theorem c6_counterexample_strict :
    (secure_me allOkWorld 1000 1000 (some "/srv/app")).trace[11]? =
      some (Ev.mount (some "tmpfs") ROOTDIR (some "tmpfs") (MS_NOSUID ||| MS_NODEV)
        (some "size=1M")) ∧
    strictlyUnder ROOTDIR ROOTDIR = false ∧
    ((((secure_me allOkWorld 1000 1000 (some "/srv/app")).trace.drop 11).flatMap
        writeTargets).all (strictlyUnder ROOTDIR)) = false := ⟨rfl, rfl, rfl⟩

/-- Claim C6 (amended): in every world, after the mount-namespace unshare
(trace position 10) every path the program writes to, creates, or uses as a
mount destination is the sandbox root `/mnt` itself or strictly under it;
host paths outside the sandbox are only ever used as bind-mount or copy
sources (reads), which `writeTargets` excludes. -/
theorem c6_build_targets_in_sandbox (w : World) (uid gid : Int) (appdir : Option String) :
    ((((secure_me w uid gid appdir).trace.drop 11).flatMap writeTargets).all
      inSandbox) = true := by
  rcases secure_trace_shape w uid gid appdir with ⟨m, htr⟩ | ⟨rest, htr, hrest⟩
  · rw [htr, List.map_take, List.drop_take]
    refine all_flatMap_of_subset _ _ (List.take_subset _ _) ?_
    exact targets_pre_inSandbox uid gid appdir
  · have hlen : (11 : Nat) ≤ ((preForkSteps uid gid appdir).map stepEv).length := by
      rw [List.length_map, preForkSteps_length]
      omega
    rw [htr, List.drop_append_of_le_length hlen]
    simp only [List.flatMap_append, List.all_append, Bool.and_eq_true]
    constructor
    · exact targets_pre_inSandbox uid gid appdir
    · rw [List.flatMap_cons]
      have hft : writeTargets Ev.fork = [] := rfl
      rw [hft, List.nil_append]
      rcases hrest with rfl | rfl | ⟨m2, rfl⟩
      · rfl
      · rfl
      · rw [List.map_take]
        refine all_flatMap_of_subset _ _ (List.take_subset _ _) ?_
        exact targets_post_inSandbox uid gid

/-!  C7: a failing system-directory bind mount stops the setup before the
application mount. -/

theorem noApp_take28 (uid gid : Int) (appdir : Option String) :
    ((((preForkSteps uid gid appdir).take 28).map stepEv).all
      (fun e => !(mountTarget e == some (ROOTDIR ++ "/app")))) = true := rfl

/-- Claim C7: if any call of the allow-listed system-directory mount block
(trace positions 13-27: the mkdir/bind/remount triples for /usr, /bin, /sbin,
/lib, /lib64) fails, `secure_me` returns 1 and its trace never contains a
mount whose destination is the application mount point `ROOTDIR/app`: the
application bind-mount is never attempted. -/
theorem c7_bind_failure_stops (w : World) (uid gid : Int) (appdir : Option String)
    (k : Nat) (hk1 : 13 ≤ k) (hk2 : k ≤ 27) (hfail : w.ok k = false) :
    (secure_me w uid gid appdir).outcome = Outcome.ret (some 1) ∧
    ((secure_me w uid gid appdir).trace.all
      (fun e => !(mountTarget e == some (ROOTDIR ++ "/app")))) = true := by
  have hsys : ∃ e d, (preForkSteps uid gid appdir)[k]? = some (Step.sys e d) := by
    interval_cases k <;> exact ⟨_, _, rfl⟩
  obtain ⟨e, d, hsysk⟩ := hsys
  by_cases hok : (runSteps w.ok 0 (preForkSteps uid gid appdir)).ok = true
  · obtain ⟨_, _, hgood⟩ := runSteps_ok_char _ _ _ hok
    have hkt := hgood k e d hsysk
    rw [Nat.zero_add] at hkt
    rw [hkt] at hfail
    cases hfail
  · rw [Bool.not_eq_true] at hok
    rcases runSteps_cases w.ok (preForkSteps uid gid appdir) 0 with ⟨h1, _, _, _⟩ |
      ⟨l₁, e', d', l₂, hdec, _, htr, _, _, hgood⟩
    · rw [hok] at h1
      cases h1
    · refine ⟨by simp [secure_me, hok], ?_⟩
      have hlen : l₁.length ≤ k := by
        by_contra hlt
        push_neg at hlt
        have hget : l₁[k]? = some (Step.sys e d) := by
          rw [hdec] at hsysk
          rwa [List.getElem?_append_left hlt] at hsysk
        have hkt := hgood k e d hget
        rw [Nat.zero_add] at hkt
        rw [hkt] at hfail
        cases hfail
      have htrace : (secure_me w uid gid appdir).trace = l₁.map stepEv ++ [e'] := by
        simp [secure_me, hok, htr]
      rw [htrace]
      have hsub : (l₁.map stepEv ++ [e']) ⊆
          (((preForkSteps uid gid appdir).take 28).map stepEv) := by
        have h1 : l₁ ++ [Step.sys e' d'] =
            (preForkSteps uid gid appdir).take (l₁.length + 1) := by
          rw [hdec, List.take_append_eq_append_take]
          congr 1
          · exact (List.take_of_length_le (by omega)).symm
          · simp
        have h2 : (preForkSteps uid gid appdir).take (l₁.length + 1) ⊆
            (preForkSteps uid gid appdir).take 28 := by
          rw [show l₁.length + 1 = min (l₁.length + 1) 28 by omega, ← List.take_take]
          exact List.take_subset _ _
        have h3 : l₁.map stepEv ++ [e'] = (l₁ ++ [Step.sys e' d']).map stepEv := by
          simp [stepEv]
        rw [h3, h1]
        exact List.map_subset stepEv h2
      exact all_of_subset _ hsub (noApp_take28 uid gid appdir)

/-- Witness for C7 at a world whose first bind mount of /usr (index 14)
fails. -/
theorem c7_bind_failure_stops_witness :
    (secure_me (World.mk (fun i => decide (i ≠ 14)) ForkBeh.child 0 0 true 1000 1000)
        1000 1000 (some "/srv/app")).outcome = Outcome.ret (some 1) ∧
    ((secure_me (World.mk (fun i => decide (i ≠ 14)) ForkBeh.child 0 0 true 1000 1000)
        1000 1000 (some "/srv/app")).trace.all
      (fun e => !(mountTarget e == some (ROOTDIR ++ "/app")))) = true :=
  c7_bind_failure_stops
    (World.mk (fun i => decide (i ≠ 14)) ForkBeh.child 0 0 true 1000 1000)
    1000 1000 (some "/srv/app") 14 (by omega) (by omega) rfl

/-!  C8-C10: the exec stage and `main`'s argument handling. -/

/-- Claim C8: once `main`'s test of the `secure_me` result passes (the setup
fell off the end of `secure_me` and the unspecified value tested is 0), there
is exactly one `execvp` attempt, of `argv[2]` with the argument vector
`argv + 2` passed through unchanged; on success the process image is replaced
(`MainOutcome.execed`, resolution via the standard search path being `execvp`
semantics), on failure there is no fallback: `main` returns execvp's -1,
whose 8-bit process exit status 255 is non-zero. -/
theorem c8_exec_stage (w : World) (argv : List String)
    (hsec : (secure_me w w.uid w.gid argv[1]?).outcome = Outcome.ret none)
    (hjunk : w.junk = 0) :
    (gitrunner_main w argv).execAttempt = some (argv[2]?, argv.drop 2) ∧
    (gitrunner_main w argv).outcome =
      (if w.execOk then MainOutcome.execed argv[2]? (argv.drop 2)
       else MainOutcome.exited (-1)) ∧
    exitByte (-1) = 255 ∧ exitByte (-1) ≠ 0 := by
  cases hex : w.execOk <;>
    refine ⟨?_, ?_, by decide, by decide⟩ <;>
    simp [gitrunner_main, hsec, hjunk, hex]

/-- Witness for C8 at a concrete fully successful world and argument list. -/
theorem c8_exec_stage_witness :
    (gitrunner_main (World.mk (fun _ => true) ForkBeh.child 0 0 true 1000 1000)
        ["launcher", "/srv/app", "sh", "-c", "id"]).execAttempt =
      some (some "sh", ["sh", "-c", "id"]) ∧
    (gitrunner_main (World.mk (fun _ => true) ForkBeh.child 0 0 true 1000 1000)
        ["launcher", "/srv/app", "sh", "-c", "id"]).outcome =
      MainOutcome.execed (some "sh") ["sh", "-c", "id"] ∧
    exitByte (-1) = 255 ∧ exitByte (-1) ≠ 0 :=
  c8_exec_stage (World.mk (fun _ => true) ForkBeh.child 0 0 true 1000 1000)
    ["launcher", "/srv/app", "sh", "-c", "id"] rfl rfl

/-- Claim C9: on the child's fully successful path `secure_me` reaches the
end of the function without executing any return statement (outcome
`Outcome.ret none`), so the value `main` tests is unspecified: with the same
fully successful setup, an unspecified value of 1 makes `main` return 1 while
an unspecified value of 0 makes it proceed to the exec — the code does not
guarantee that a fully successful setup is followed by the exec. -/
theorem c9_missing_return (u g cs : Int) (appdir : Option String) (argv : List String) :
    (secure_me (World.mk (fun _ => true) ForkBeh.child cs 0 true u g) u g appdir).outcome =
      Outcome.ret none ∧
    (gitrunner_main (World.mk (fun _ => true) ForkBeh.child cs 1 true u g) argv).outcome =
      MainOutcome.exited 1 ∧
    (gitrunner_main (World.mk (fun _ => true) ForkBeh.child cs 0 true u g) argv).outcome =
      MainOutcome.execed argv[2]? (argv.drop 2) := ⟨rfl, rfl, rfl⟩

theorem runSteps_trace_cons (okf : Nat → Bool) (i : Nat) (s : Step) (rest : List Step) :
    ∃ t, (runSteps okf i (s :: rest)).trace = stepEv s :: t := by
  cases s with
  | sys e d =>
    by_cases h : okf i = true
    · exact ⟨(runSteps okf (i + 1) rest).trace, by simp [runSteps, h, stepEv]⟩
    · rw [Bool.not_eq_true] at h
      exact ⟨[], by simp [runSteps, h, stepEv]⟩
  | sysIgn e => exact ⟨(runSteps okf (i + 1) rest).trace, by simp [runSteps, stepEv]⟩

/-- In every world the first operation `secure_me` attempts is the combined
user/pid namespace unshare. -/
theorem secure_trace_take_one (w : World) (uid gid : Int) (appdir : Option String) :
    (secure_me w uid gid appdir).trace.take 1 =
      [Ev.unshare (CLONE_NEWUSER ||| CLONE_NEWPID)] := by
  have hexp : preForkSteps uid gid appdir =
      Step.sys (Ev.unshare (CLONE_NEWUSER ||| CLONE_NEWPID)) "CLONE_NEWUSER" ::
        (preForkSteps uid gid appdir).tail := rfl
  obtain ⟨t, ht⟩ := runSteps_trace_cons w.ok 0
    (Step.sys (Ev.unshare (CLONE_NEWUSER ||| CLONE_NEWPID)) "CLONE_NEWUSER")
    ((preForkSteps uid gid appdir).tail)
  rw [← hexp] at ht
  by_cases hok : (runSteps w.ok 0 (preForkSteps uid gid appdir)).ok = true
  · cases hfb : w.forkBeh with
    | fail => simp [secure_me, hok, hfb, ht, stepEv]
    | parent => simp [secure_me, hok, hfb, ht, stepEv]
    | child => simp [secure_me, hok, hfb, ht, stepEv]
  · rw [Bool.not_eq_true] at hok
    simp [secure_me, hok, ht, stepEv]

/-- the usage flag and the `secure_me` call of `main` are the same in every
branch of `main`. -/
theorem gitrunner_main_fields (w : World) (argv : List String) :
    (gitrunner_main w argv).usagePrinted = decide (argv.length < 3) ∧
    (gitrunner_main w argv).secure = secure_me w w.uid w.gid argv[1]? := by
  cases hso : (secure_me w w.uid w.gid argv[1]?).outcome with
  | ret v =>
    by_cases hv : v.getD w.junk ≠ 0
    · simp [gitrunner_main, hso, hv]
    · cases hex : w.execOk <;> simp [gitrunner_main, hso, hv, hex]
  | exit c => simp [gitrunner_main, hso]

/-- Claim C10: invoked with fewer than three arguments, `main` prints the
usage banner but does not terminate: it still calls `secure_me` (whose first
namespace call is attempted) with the possibly missing application-directory
argument `argv[1]`, `argv[2]` is missing (`none`), and — whenever the setup
result tests as 0 — `main` still attempts the exec of that missing target
program. -/
theorem c10_usage_no_exit (w : World) (argv : List String) (h : argv.length < 3) :
    (gitrunner_main w argv).usagePrinted = true ∧
    (gitrunner_main w argv).secure = secure_me w w.uid w.gid argv[1]? ∧
    (gitrunner_main w argv).secure.trace.take 1 =
      [Ev.unshare (CLONE_NEWUSER ||| CLONE_NEWPID)] ∧
    argv[2]? = none ∧
    (∀ v, (gitrunner_main w argv).secure.outcome = Outcome.ret v →
      v.getD w.junk = 0 →
      (gitrunner_main w argv).execAttempt = some (none, argv.drop 2)) := by
  obtain ⟨hu, hs⟩ := gitrunner_main_fields w argv
  have h2 : argv[2]? = none := List.getElem?_eq_none (by omega)
  refine ⟨?_, hs, ?_, h2, ?_⟩
  · rw [hu]
    exact decide_eq_true h
  · rw [hs]
    exact secure_trace_take_one w w.uid w.gid argv[1]?
  · intro v hv hj
    rw [hs] at hv
    cases hex : w.execOk <;> simp [gitrunner_main, hv, hj, hex, h2]

/-- Witness for C10 at a concrete single-argument invocation. -/
theorem c10_usage_no_exit_witness :
    (gitrunner_main (World.mk (fun _ => true) ForkBeh.child 0 0 true 1000 1000)
        ["gitrunner"]).usagePrinted = true ∧
    (gitrunner_main (World.mk (fun _ => true) ForkBeh.child 0 0 true 1000 1000)
        ["gitrunner"]).secure =
      secure_me (World.mk (fun _ => true) ForkBeh.child 0 0 true 1000 1000)
        1000 1000 none ∧
    (gitrunner_main (World.mk (fun _ => true) ForkBeh.child 0 0 true 1000 1000)
        ["gitrunner"]).secure.trace.take 1 =
      [Ev.unshare (CLONE_NEWUSER ||| CLONE_NEWPID)] ∧
    (["gitrunner"] : List String)[2]? = none ∧
    (∀ v, (gitrunner_main (World.mk (fun _ => true) ForkBeh.child 0 0 true 1000 1000)
        ["gitrunner"]).secure.outcome = Outcome.ret v →
      v.getD 0 = 0 →
      (gitrunner_main (World.mk (fun _ => true) ForkBeh.child 0 0 true 1000 1000)
        ["gitrunner"]).execAttempt = some (none, [])) :=
  c10_usage_no_exit (World.mk (fun _ => true) ForkBeh.child 0 0 true 1000 1000)
    ["gitrunner"] (by decide)

end Gitrunner
